import Mathlib

/-!
Verification of the gwildor toolkit: a Python 2 codebase comprising a
structural-equality mixin (equality.py), AST node classes (ast.py), a parser
combinator library (combinators.py), a generic lexer engine (lexer.py) and an
arithmetic-expression grammar (parser.py).

The embedding models Python dynamic values with one inductive type `PyVal`
(positions in parser results are `PyVal`s, because the code can and does store
non-integers there), Python exceptions with `PyErr`, and possible
non-termination of `while` loops with an outer `Option` (fuel).
-/

namespace Gwildor

/-- Python exceptions that the modelled code can raise. -/
inductive PyErr where
  | attributeError
  | typeError
  | indexError
  | valueError
  | runtimeError
  deriving DecidableEq

/-- Token tags.  In the source these are module-level constants compared with
the identity test; distinct constructors model distinct constants. -/
inductive Tag where
  | RESERVED
  | INT
  | ID
  | KEYWORD
  deriving DecidableEq

/-- A token is a (text, tag) pair, as produced by the lexer. -/
structure Token where
  text : String
  tag  : Tag
  deriving DecidableEq

/-- Python runtime values occurring in this program: primitives, tuples,
lists, the closures returned by process_binop (defunctionalised as
`vBinopFn`), and the AST node classes of ast.py.  Node fields are untyped
(`PyVal`), exactly as in Python. -/
inductive PyVal where
  | vInt (n : Int)
  | vStr (s : String)
  | vNone
  | vPair (a b : PyVal)
  | vList (vs : List PyVal)
  | vBinopFn (op : PyVal)
  | intAexp (i : PyVal)
  | varAexp (name : PyVal)
  | binopAexp (op left right : PyVal)
  | relopBexp (op left right : PyVal)
  | andBexp (left right : PyVal)
  | orBexp (left right : PyVal)
  | notBexp (exp : PyVal)
  | assignStmt (name aexp : PyVal)
  | compoundStmt (first second : PyVal)
  | ifStmt (condition trueStmt falseStmt : PyVal)
  | whileStmt (condition body : PyVal)

namespace PyVal

/-- Distinct number per runtime class; `isinstance(other, self.__class__)`
for the leaf AST classes (which have no subclasses and no overlap) is
equivalent to having the same class, i.e. the same variant number. -/
def variantIdx : PyVal → Nat
  | vInt _ => 0
  | vStr _ => 1
  | vNone => 2
  | vPair _ _ => 3
  | vList _ => 4
  | vBinopFn _ => 5
  | intAexp _ => 6
  | varAexp _ => 7
  | binopAexp _ _ _ => 8
  | relopBexp _ _ _ => 9
  | andBexp _ _ => 10
  | orBexp _ _ => 11
  | notBexp _ => 12
  | assignStmt _ _ => 13
  | compoundStmt _ _ => 14
  | ifStmt _ _ _ => 15
  | whileStmt _ _ => 16

/-- Which values are instances of classes adopting the Equality mixin
(the AST node classes of ast.py). -/
def isNode (v : PyVal) : Bool := 6 ≤ v.variantIdx

/-- `v.__dict__` : the instance attribute dictionary.  AST nodes expose their
constructor-set fields; function objects have an (empty) `__dict__`;
ints, strings, None, tuples and lists have no `__dict__` attribute, so the
access raises AttributeError. -/
def getDict : PyVal → Except PyErr (List (String × PyVal))
  | intAexp i => .ok [("i", i)]
  | varAexp n => .ok [("name", n)]
  | binopAexp op l r => .ok [("op", op), ("left", l), ("right", r)]
  | relopBexp op l r => .ok [("op", op), ("left", l), ("right", r)]
  | andBexp l r => .ok [("left", l), ("right", r)]
  | orBexp l r => .ok [("left", l), ("right", r)]
  | notBexp e => .ok [("exp", e)]
  | assignStmt n a => .ok [("name", n), ("aexp", a)]
  | compoundStmt f s => .ok [("first", f), ("second", s)]
  | ifStmt c t f => .ok [("condition", c), ("true_stmt", t), ("false_stmt", f)]
  | whileStmt c b => .ok [("condition", c), ("body", b)]
  | vBinopFn _ => .ok []
  | _ => .error .attributeError

end PyVal

/-- Key lookup in an attribute dictionary. -/
def lookupKey (k : String) : List (String × PyVal) → Option PyVal
  | [] => none
  | (k2, v) :: rest => if k2 = k then some v else lookupKey k rest

/-- `all([c1, c2])` where building the list already evaluated the dict
comparison: combine the isinstance boolean with the (possibly raising)
dictionary comparison. -/
def instanceEq (c1 : Bool) (dcmp : Except PyErr Bool) : Except PyErr Bool :=
  match dcmp with
  | .error e => .error e
  | .ok c2 => .ok (c1 && c2)

/-- Compare one dictionary entry and, only when it was equal, continue with
the rest of the entries (CPython stops the dict comparison at the first
unequal value). -/
def fieldStep (cmp : Except PyErr Bool) (rest : Unit → Except PyErr Bool) :
    Except PyErr Bool :=
  match cmp with
  | .error e => .error e
  | .ok false => .ok false
  | .ok true => rest ()

/-- Look a key up in the other dictionary and compare the values with the
given comparison; a missing key makes the dictionaries unequal. -/
def keyCmp (k : String) (dw : List (String × PyVal))
    (f : PyVal → Except PyErr Bool) : Except PyErr Bool :=
  match lookupKey k dw with
  | none => .ok false
  | some x => f x

mutual

/-- Python 2 `v == w` for the values of this program.

For a value of a class adopting the Equality mixin (an AST node) on the left
this is `Equality.__eq__` from equality.py:

  logic = [isinstance(other, self.__class__), self.__dict__ == other.__dict__]
  return all(logic)

Both list elements are evaluated when the list is built, so the dictionary
comparison runs even when the isinstance test is false, and accessing
`other.__dict__` raises AttributeError when `other` is an int, string, None,
tuple or list.  Dictionary comparison follows CPython: equal sizes, then each
key of the left dictionary must be present in the right one with an equal
value (values compared with `==` recursively, stopping at the first unequal
value).

For a non-node left and node right operand, the left operand's comparison
returns NotImplemented and Python retries with `Equality.__eq__(w, v)`: the
isinstance test is false and `v.__dict__` raises AttributeError for
primitives, while a function object has an empty `__dict__` making the
comparison false.  Two function objects compare by identity in Python; the
case is not reached by any comparison in this development and is modelled
structurally on the stored operator. -/
def pyEq : PyVal → PyVal → Except PyErr Bool
  | .vInt m, .vInt n => .ok (decide (m = n))
  | .vStr s, .vStr t => .ok (decide (s = t))
  | .vNone, .vNone => .ok true
  | .vPair a b, .vPair c d =>
    fieldStep (pyEq a c) (fun _ => pyEq b d)
  | .vList xs, .vList ys => pyEqList xs ys
  | .vBinopFn a, .vBinopFn b => pyEq a b
  | .intAexp i, w =>
    instanceEq (PyVal.variantIdx w == 6)
      (match PyVal.getDict w with
       | .error e => .error e
       | .ok dw =>
         if dw.length == 1 then keyCmp "i" dw (fun x => pyEq i x)
         else .ok false)
  | .varAexp n, w =>
    instanceEq (PyVal.variantIdx w == 7)
      (match PyVal.getDict w with
       | .error e => .error e
       | .ok dw =>
         if dw.length == 1 then keyCmp "name" dw (fun x => pyEq n x)
         else .ok false)
  | .binopAexp op l r, w =>
    instanceEq (PyVal.variantIdx w == 8)
      (match PyVal.getDict w with
       | .error e => .error e
       | .ok dw =>
         if dw.length == 3 then
           fieldStep (keyCmp "op" dw (fun x => pyEq op x)) (fun _ =>
             fieldStep (keyCmp "left" dw (fun x => pyEq l x)) (fun _ =>
               keyCmp "right" dw (fun x => pyEq r x)))
         else .ok false)
  | .relopBexp op l r, w =>
    instanceEq (PyVal.variantIdx w == 9)
      (match PyVal.getDict w with
       | .error e => .error e
       | .ok dw =>
         if dw.length == 3 then
           fieldStep (keyCmp "op" dw (fun x => pyEq op x)) (fun _ =>
             fieldStep (keyCmp "left" dw (fun x => pyEq l x)) (fun _ =>
               keyCmp "right" dw (fun x => pyEq r x)))
         else .ok false)
  | .andBexp l r, w =>
    instanceEq (PyVal.variantIdx w == 10)
      (match PyVal.getDict w with
       | .error e => .error e
       | .ok dw =>
         if dw.length == 2 then
           fieldStep (keyCmp "left" dw (fun x => pyEq l x)) (fun _ =>
             keyCmp "right" dw (fun x => pyEq r x))
         else .ok false)
  | .orBexp l r, w =>
    instanceEq (PyVal.variantIdx w == 11)
      (match PyVal.getDict w with
       | .error e => .error e
       | .ok dw =>
         if dw.length == 2 then
           fieldStep (keyCmp "left" dw (fun x => pyEq l x)) (fun _ =>
             keyCmp "right" dw (fun x => pyEq r x))
         else .ok false)
  | .notBexp e1, w =>
    instanceEq (PyVal.variantIdx w == 12)
      (match PyVal.getDict w with
       | .error e => .error e
       | .ok dw =>
         if dw.length == 1 then keyCmp "exp" dw (fun x => pyEq e1 x)
         else .ok false)
  | .assignStmt n a, w =>
    instanceEq (PyVal.variantIdx w == 13)
      (match PyVal.getDict w with
       | .error e => .error e
       | .ok dw =>
         if dw.length == 2 then
           fieldStep (keyCmp "name" dw (fun x => pyEq n x)) (fun _ =>
             keyCmp "aexp" dw (fun x => pyEq a x))
         else .ok false)
  | .compoundStmt f s, w =>
    instanceEq (PyVal.variantIdx w == 14)
      (match PyVal.getDict w with
       | .error e => .error e
       | .ok dw =>
         if dw.length == 2 then
           fieldStep (keyCmp "first" dw (fun x => pyEq f x)) (fun _ =>
             keyCmp "second" dw (fun x => pyEq s x))
         else .ok false)
  | .ifStmt c t f, w =>
    instanceEq (PyVal.variantIdx w == 15)
      (match PyVal.getDict w with
       | .error e => .error e
       | .ok dw =>
         if dw.length == 3 then
           fieldStep (keyCmp "condition" dw (fun x => pyEq c x)) (fun _ =>
             fieldStep (keyCmp "true_stmt" dw (fun x => pyEq t x)) (fun _ =>
               keyCmp "false_stmt" dw (fun x => pyEq f x)))
         else .ok false)
  | .whileStmt c b, w =>
    instanceEq (PyVal.variantIdx w == 16)
      (match PyVal.getDict w with
       | .error e => .error e
       | .ok dw =>
         if dw.length == 2 then
           fieldStep (keyCmp "condition" dw (fun x => pyEq c x)) (fun _ =>
             keyCmp "body" dw (fun x => pyEq b x))
         else .ok false)
  | .vBinopFn _, _ => .ok false
  | _, w =>
    if w.isNode then .error .attributeError else .ok false

/-- Python list equality: equal lengths and pairwise equal elements,
stopping at the first unequal pair. -/
def pyEqList : List PyVal → List PyVal → Except PyErr Bool
  | [], [] => .ok true
  | [], _ :: _ => .ok false
  | _ :: _, [] => .ok false
  | x :: xs, y :: ys =>
    fieldStep (pyEq x y) (fun _ => pyEqList xs ys)

end

/-- Well-formed arithmetic-expression nodes, as built by the grammar:
IntAexp holds an integer, VarAexp a name string, BinopAexp an operator
string and two arithmetic-expression children. -/
inductive IsAexp : PyVal → Prop where
  | int (n : Int) : IsAexp (.intAexp (.vInt n))
  | var (s : String) : IsAexp (.varAexp (.vStr s))
  | binop (op : String) {l r : PyVal} : IsAexp l → IsAexp r →
      IsAexp (.binopAexp (.vStr op) l r)

/-!
The combinator library (combinators.py).  A parser is applied to the full
token list and a position.  The position of a `Result` is a `PyVal`, not a
`Nat`, because `Concat.__call__` stores the right parser's value in the
position slot.  The outcome of applying a parser is

  * `none`                  — the application does not terminate (a `while`
                              loop ran out of fuel);
  * `some (.error e)`       — the application raised exception `e`;
  * `some (.ok none)`       — the parser failed (returned Python None);
  * `some (.ok (some r))`   — the parser succeeded with Result `r`.
-/

/-- A parse Result: value and position, both dynamic values. -/
abbrev Res := PyVal × PyVal

/-- Outcome of a parser application (see the section comment). -/
abbrev PRes := Option (Except PyErr (Option Res))

/-- The type of parsers: token list and position to outcome. -/
abbrev ParserF := List Token → PyVal → PRes

/-- `tokens[pos]` for a Python list of tokens: non-integer indices raise
TypeError, negative integers index from the end, out-of-range indices raise
IndexError. -/
def pyListGet (tokens : List Token) (pos : PyVal) : Except PyErr Token :=
  match pos with
  | .vInt n =>
    let i : Int := if n < 0 then n + tokens.length else n
    if h : 0 ≤ i ∧ i < tokens.length then
      .ok (tokens.get ⟨i.toNat, by omega⟩)
    else
      .error .indexError
  | _ => .error .typeError

/-- `Reserved(value, tag).__call__`: the logic list
`[pos < len(tokens), tokens[pos][0] == value, tokens[pos][1] is tag]` is
built eagerly, so `tokens[pos]` is evaluated even when `pos` is out of range
(IndexError) or not an integer (TypeError); when all three hold the result
is `Result(tokens[pos][0], pos + 1)`. -/
def reservedCall (value : String) (tag : Tag) : ParserF := fun tokens pos =>
  match pos with
  | .vInt n =>
    match pyListGet tokens (.vInt n) with
    | .error e => some (.error e)
    | .ok t =>
      if n < (tokens.length : Int) ∧ t.text = value ∧ t.tag = tag then
        some (.ok (some (.vStr t.text, .vInt (n + 1))))
      else
        some (.ok none)
  | _ => some (.error .typeError)

/-- `Tag(tag).__call__`: like `Reserved` without the text comparison. -/
def tagCall (tag : Tag) : ParserF := fun tokens pos =>
  match pos with
  | .vInt n =>
    match pyListGet tokens (.vInt n) with
    | .error e => some (.error e)
    | .ok t =>
      if n < (tokens.length : Int) ∧ t.tag = tag then
        some (.ok (some (.vStr t.text, .vInt (n + 1))))
      else
        some (.ok none)
  | _ => some (.error .typeError)

/-- `Concat(left, right).__call__`: apply `left`, on success apply `right` at
the left result's position; on double success return
`Result((left.value, right.value), right.value)` — the source stores
`right_result.value`, not `right_result.pos`, in the position slot. -/
def concatCall (left right : ParserF) : ParserF := fun tokens pos =>
  match left tokens pos with
  | none => none
  | some (.error e) => some (.error e)
  | some (.ok none) => some (.ok none)
  | some (.ok (some lr)) =>
    match right tokens lr.2 with
    | none => none
    | some (.error e) => some (.error e)
    | some (.ok none) => some (.ok none)
    | some (.ok (some rr)) =>
      some (.ok (some (.vPair lr.1 rr.1, rr.1)))

/-- `Alternate(left, right).__call__`: return the left result when it is
truthy (a Result object always is), otherwise the right result. -/
def alternateCall (left right : ParserF) : ParserF := fun tokens pos =>
  match left tokens pos with
  | none => none
  | some (.error e) => some (.error e)
  | some (.ok none) => right tokens pos
  | some (.ok (some lr)) => some (.ok (some lr))

/-- `Opt(parser).__call__`: pass a success through, convert a failure into
`Result(None, pos)`. -/
def optCall (parser : ParserF) : ParserF := fun tokens pos =>
  match parser tokens pos with
  | none => none
  | some (.error e) => some (.error e)
  | some (.ok none) => some (.ok (some (.vNone, pos)))
  | some (.ok (some r)) => some (.ok (some r))

/-- `Process(parser, fn).__call__`: on success replace the result value with
`fn(value)` keeping the position; on failure fall through returning None. -/
def processCall (parser : ParserF) (fn : PyVal → Except PyErr PyVal) :
    ParserF := fun tokens pos =>
  match parser tokens pos with
  | none => none
  | some (.error e) => some (.error e)
  | some (.ok none) => some (.ok none)
  | some (.ok (some r)) =>
    match fn r.1 with
    | .error e => some (.error e)
    | .ok v => some (.ok (some (v, r.2)))

/-- The while loop of `Rep.__call__`: keep the values of successive
successes, stop at the first failure; `fuel` bounds the number of
iterations (the Python loop need not terminate). -/
def repGo (parser : ParserF) (tokens : List Token) :
    Nat → List PyVal → PyVal → PRes
  | 0, results, pos =>
    match parser tokens pos with
    | none => none
    | some (.error e) => some (.error e)
    | some (.ok none) => some (.ok (some (.vList results, pos)))
    | some (.ok (some _)) => none
  | fuel + 1, results, pos =>
    match parser tokens pos with
    | none => none
    | some (.error e) => some (.error e)
    | some (.ok none) => some (.ok (some (.vList results, pos)))
    | some (.ok (some r)) => repGo parser tokens fuel (results ++ [r.1]) r.2

/-- `Rep(parser).__call__`. -/
def repCall (parser : ParserF) (fuel : Nat) : ParserF := fun tokens pos =>
  repGo parser tokens fuel [] pos

/-- `Phrase(parser).__call__`: a success is returned unchanged only when
`result.pos == len(tokens)`; the comparison is Python `==`, which raises
when the position slot holds an AST node. -/
def phraseCall (parser : ParserF) : ParserF := fun tokens pos =>
  match parser tokens pos with
  | none => none
  | some (.error e) => some (.error e)
  | some (.ok none) => some (.ok none)
  | some (.ok (some r)) =>
    match pyEq r.2 (.vInt tokens.length) with
    | .error e => some (.error e)
    | .ok true => some (.ok (some r))
    | .ok false => some (.ok none)

/-- `Lazy.__call__` with the instance state passed explicitly: `cached` is
the `self.parser` field (initially None); when it is absent the producer is
invoked and its parser stored; the (possibly updated) state is returned next
to the application outcome. -/
def lazyCall (parserFn : Unit → ParserF) (cached : Option ParserF)
    (tokens : List Token) (pos : PyVal) : PRes × Option ParserF :=
  match cached with
  | none =>
    let p := parserFn ()
    (p tokens pos, some p)
  | some p => (p tokens pos, some p)

/-- The function `process_next` defined inside `Exp.__call__`: unpack the
pair `(sepfn, right)` produced by `separator + parser` and call the
combining function on the accumulated value and the new element.  The
combining functions of this grammar are the closures of `process_binop`. -/
def processNext (acc : PyVal) : PyVal → Except PyErr PyVal := fun parsed =>
  match parsed with
  | .vPair (.vBinopFn op) right => .ok (.binopAexp op acc right)
  | .vPair _ _ => .error .typeError
  | _ => .error .typeError

/-- The while loop of `Exp.__call__`: repeatedly apply
`next_parser = self.separator + self.parser ^ process_next` at the current
result's position, replacing the result while it succeeds; `process_next`
reads the current accumulated result. -/
def expLoop (parser separator : ParserF) (tokens : List Token) :
    Nat → Res → PRes
  | 0, _ => none
  | fuel + 1, r =>
    match processCall (concatCall separator parser) (processNext r.1)
        tokens r.2 with
    | none => none
    | some (.error e) => some (.error e)
    | some (.ok none) => some (.ok (some r))
    | some (.ok (some r2)) => expLoop parser separator tokens fuel r2

/-- `Exp(parser, separator).__call__`: apply the element parser once, then
run the accumulation loop; when the first application fails the loop is
skipped and the failure is returned. -/
def expCall (parser separator : ParserF) (fuel : Nat) : ParserF :=
  fun tokens pos =>
  match parser tokens pos with
  | none => none
  | some (.error e) => some (.error e)
  | some (.ok none) => some (.ok none)
  | some (.ok (some r)) => expLoop parser separator tokens fuel r

/-!
The arithmetic-expression grammar (parser.py).
-/

/-- `keyword(kw) = Reserved(kw, RESERVED)`. -/
def keyword (kw : String) : ParserF := reservedCall kw .RESERVED

/-- Read a run of decimal digits, accumulating their value; any other
character makes the conversion fail. -/
def decDigits : List Char → Nat → Option Nat
  | [], acc => some acc
  | c :: rest, acc =>
    if c.isDigit then decDigits rest (10 * acc + (c.toNat - 48)) else none

/-- Python `int(s)` on a string: an optional sign followed by at least one
decimal digit; anything else raises ValueError. -/
def pyStrToInt (s : String) : Option Int :=
  match s.toList with
  | [] => none
  | '-' :: c :: cs => (decDigits (c :: cs) 0).map (fun n => -(n : Int))
  | '+' :: c :: cs => (decDigits (c :: cs) 0).map (fun n => (n : Int))
  | c :: cs => (decDigits (c :: cs) 0).map (fun n => (n : Int))

/-- The lambda of `num = Tag(INT) ^ (lambda i: int(i))`: Python `int` on the
token text; a non-numeric string raises ValueError. -/
def pyIntFn : PyVal → Except PyErr PyVal := fun v =>
  match v with
  | .vStr s =>
    match pyStrToInt s with
    | some n => .ok (.vInt n)
    | none => .error .valueError
  | .vInt n => .ok (.vInt n)
  | _ => .error .typeError

/-- `num = Tag(INT) ^ (lambda i: int(i))`. -/
def num : ParserF := processCall (tagCall .INT) pyIntFn

/-- `id = Tag(ID)`. -/
def idParser : ParserF := tagCall .ID

/-- `aexp_precedence_list = [['*', '/'], ['+', '-']]`. -/
def aexpPrecedenceList : List (List String) := [["*", "/"], ["+", "-"]]

/-- `aexp_value()`: `(num ^ IntAexp) | (id ^ VarAexp)`. -/
def aexpValue : ParserF :=
  alternateCall
    (processCall num (fun i => .ok (.intAexp i)))
    (processCall idParser (fun v => .ok (.varAexp v)))

/-- `process_group`: the tuple unpacking `((_, p), _) = parsed` keeps the
expression between the parentheses; a non-matching shape raises TypeError. -/
def processGroup : PyVal → Except PyErr PyVal := fun parsed =>
  match parsed with
  | .vPair (.vPair _ p) _ => .ok p
  | _ => .error .typeError

/-- `process_binop(op)`: returns the closure `lambda l, r: BinopAexp(op, l, r)`
(defunctionalised as the value `vBinopFn op`). -/
def processBinop : PyVal → Except PyErr PyVal := fun op =>
  .ok (.vBinopFn op)

/-- `any_op_in_list(ops)`: `reduce(lambda l, r: l | r, op_parsers)`; `reduce`
over an empty sequence raises TypeError. -/
def anyOpInList (ops : List String) : ParserF :=
  match ops.map keyword with
  | [] => fun _ _ => some (.error .typeError)
  | p :: ps => ps.foldl alternateCall p

/-- `op_parser(precedence_level)` inside `precedence`:
`any_op_in_list(precedence_level) ^ combine`. -/
def opParserFor (combine : PyVal → Except PyErr PyVal)
    (level : List String) : ParserF :=
  processCall (anyOpInList level) combine

/-- `precedence(value_parser, precedence_levels, combine)`: start with
`value_parser * op_parser(levels[0])` and fold the remaining levels with
`parser * op_parser(level)`; an empty level list would raise IndexError at
`precedence_levels[0]` (modelled at application time; every use in the
sources passes a non-empty list). -/
def precedence (valueParser : ParserF) (levels : List (List String))
    (combine : PyVal → Except PyErr PyVal) (fuel : Nat) : ParserF :=
  match levels with
  | [] => fun _ _ => some (.error .indexError)
  | l0 :: rest =>
    rest.foldl (fun parser level => expCall parser (opParserFor combine level) fuel)
      (expCall valueParser (opParserFor combine l0) fuel)

/-- `aexp_group()` with the inner expression parser given explicitly:
`keyword('(') + Lazy(aexp) + keyword(')') ^ process_group`.  By the Lazy
equivalence proved below (claim C10), `Lazy(aexp)` applies the parser
`aexp()` produces, so the deferred reference is modelled by the inner parser
itself. -/
def aexpGroupOf (inner : ParserF) : ParserF :=
  processCall (concatCall (concatCall (keyword "(") inner) (keyword ")"))
    processGroup

/-- `aexp_term()`: `aexp_value() | aexp_group()`. -/
def aexpTermOf (inner : ParserF) : ParserF :=
  alternateCall aexpValue (aexpGroupOf inner)

/-- Modelled from the spec: the full arithmetic-expression parser `aexp`
referenced by `aexp_group` through `Lazy(aexp)` is not defined in the given
sources; per the spec it is the precedence-climbing composition
`precedence(aexp_term, aexp_precedence_list, process_binop)`.  `depth`
bounds the grouping recursion (Python's recursion limit). -/
def aexp (fuel : Nat) : Nat → ParserF
  | 0 => fun _ _ => some (.error .runtimeError)
  | depth + 1 =>
    precedence (aexpTermOf (aexp fuel depth)) aexpPrecedenceList
      processBinop fuel

/-- `aexp_term()` with the deferred reference resolved at recursion depth
`depth`. -/
def aexpTerm (fuel depth : Nat) : ParserF :=
  aexpTermOf (aexp fuel depth)

/-- The token list the lexer produces for the text `2 + 3 * 4`. -/
def tokensTwoPlusThreeTimesFour : List Token :=
  [⟨"2", .INT⟩, ⟨"+", .RESERVED⟩, ⟨"3", .INT⟩, ⟨"*", .RESERVED⟩,
   ⟨"4", .INT⟩]

/-- The token list the lexer produces for the text `2 - 3 - 4`. -/
def tokensTwoMinusThreeMinusFour : List Token :=
  [⟨"2", .INT⟩, ⟨"-", .RESERVED⟩, ⟨"3", .INT⟩, ⟨"-", .RESERVED⟩,
   ⟨"4", .INT⟩]

/-!
The generic lexer engine (lexer.py).  The input text is a character list; a
rule's regular expression is modelled by its matching function, which for a
text and a start offset returns the end offset of the match attempted at
exactly the start offset (the semantics of `re.match(characters, pos)`), or
nothing.  The matched text `match.group(0)` is the slice of the input from
the start offset to the end offset.
-/

/-- One entry of `token_exprs`: a compiled pattern and an optional tag. -/
structure TokenExpr where
  pattern : List Char → Nat → Option Nat
  tag : Option Tag

/-- The inner `for token_expr in token_exprs` loop: the first rule in table
order whose pattern matches at `pos` is accepted; its match end and tag are
returned. -/
def firstMatch (exprs : List TokenExpr) (chars : List Char) (pos : Nat) :
    Option (Nat × Option Tag) :=
  match exprs with
  | [] => none
  | e :: rest =>
    match e.pattern chars pos with
    | some endPos => some (endPos, e.tag)
    | none => firstMatch rest chars pos

/-- A lexer token: matched text and tag. -/
abbrev LTok := List Char × Tag

/-- The `while pos < len(characters)` loop of `lexer`: accept the first
matching rule, append `(text, tag)` when the rule has a tag, advance the
cursor to the match end; when no rule matches, write the illegal-character
diagnostic and exit the process (`Except.error`); when the cursor reaches
the end of the text return the accumulated tokens.  `fuel` bounds the number
of iterations (a rule matching the empty string makes the Python loop spin
forever). -/
def lexerLoop (exprs : List TokenExpr) (chars : List Char) :
    Nat → Nat → List LTok → Option (Except Unit (List LTok))
  | 0, _, _ => none
  | fuel + 1, pos, tokens =>
    if pos < chars.length then
      match firstMatch exprs chars pos with
      | none => some (.error ())
      | some (endPos, otag) =>
        let text := (chars.drop pos).take (endPos - pos)
        let tokens2 :=
          match otag with
          | some t => tokens ++ [(text, t)]
          | none => tokens
        lexerLoop exprs chars fuel endPos tokens2
    else
      some (.ok tokens)

/-- `lexer(characters, token_exprs)`. -/
def lexer (chars : List Char) (exprs : List TokenExpr) (fuel : Nat) :
    Option (Except Unit (List LTok)) :=
  lexerLoop exprs chars fuel 0 []

/-- The matching function of a regular expression that is a literal string,
such as `if`. -/
def litMatch (lit : List Char) : List Char → Nat → Option Nat :=
  fun chars pos =>
    if lit.isPrefixOf (chars.drop pos) then some (pos + lit.length) else none

/-- The matching function of a character-class-plus regular expression such
as `[a-zA-Z]+` or `[ \t\n]+`: the maximal non-empty run of class characters
starting at the offset. -/
def classPlusMatch (cls : Char → Bool) : List Char → Nat → Option Nat :=
  fun chars pos =>
    let run := ((chars.drop pos).takeWhile cls).length
    if run = 0 then none else some (pos + run)

/-- The rule table `[("if", KEYWORD), ("[a-zA-Z]+", ID)]`. -/
def ifIdExprs : List TokenExpr :=
  [⟨litMatch ['i', 'f'], some .KEYWORD⟩,
   ⟨classPlusMatch Char.isAlpha, some .ID⟩]

/-- The rule table with an untagged whitespace rule and the ID rule. -/
def wsIdExprs : List TokenExpr :=
  [⟨classPlusMatch (fun c => c = ' ' || c = '\t' || c = '\n'), none⟩,
   ⟨classPlusMatch Char.isAlpha, some .ID⟩]

/-- Prepend already-accumulated values to the value list of a successful
repetition outcome; any other outcome is unchanged.  Used to state how one
successful step of `Rep` relates to the rest of the run. -/
def repPrepend (acc : List PyVal) : PRes → PRes
  | some (.ok (some (.vList vs, q))) => some (.ok (some (.vList (acc ++ vs), q)))
  | x => x

/-!
Theorems.
-/

/-- Helper: accumulated values pass through the `Rep` loop unchanged in
front of the values the loop itself collects. -/
theorem repGo_acc (parser : ParserF) (tokens : List Token) :
    ∀ (fuel : Nat) (acc : List PyVal) (pos : PyVal),
      repGo parser tokens fuel acc pos =
        repPrepend acc (repGo parser tokens fuel [] pos) := by
  intro fuel
  induction fuel with
  | zero =>
    intro acc pos
    cases hp : parser tokens pos with
    | none => simp [repGo, hp, repPrepend]
    | some x =>
      cases x with
      | error e => simp [repGo, hp, repPrepend]
      | ok o =>
        cases o with
        | none => simp [repGo, hp, repPrepend]
        | some r => simp [repGo, hp, repPrepend]
  | succ fuel ih =>
    intro acc pos
    cases hp : parser tokens pos with
    | none => simp [repGo, hp, repPrepend]
    | some x =>
      cases x with
      | error e => simp [repGo, hp, repPrepend]
      | ok o =>
        cases o with
        | none => simp [repGo, hp, repPrepend]
        | some r =>
          simp only [repGo, hp, List.nil_append]
          rw [ih (acc ++ [r.1]) r.2, ih [r.1] r.2]
          cases hg : repGo parser tokens fuel [] r.2 with
          | none => simp [repPrepend]
          | some x2 =>
            cases x2 with
            | error e => simp [repPrepend]
            | ok o2 =>
              cases o2 with
              | none => simp [repPrepend]
              | some r2 =>
                obtain ⟨v2, q2⟩ := r2
                cases v2 <;> simp [repPrepend]

/-- Helper: whenever the `Rep` loop terminates without an exception it
returns a success carrying a list value. -/
theorem repGo_ok (parser : ParserF) (tokens : List Token) :
    ∀ (fuel : Nat) (acc : List PyVal) (pos : PyVal) (r : Option Res),
      repGo parser tokens fuel acc pos = some (.ok r) →
      ∃ vs q, r = some (.vList vs, q) := by
  intro fuel
  induction fuel with
  | zero =>
    intro acc pos r h
    cases hp : parser tokens pos <;> simp [repGo, hp] at h
    case some x =>
      cases x with
      | error e => simp_all
      | ok o =>
        cases o with
        | none =>
          simp_all
          exact ⟨acc, pos, h.symm⟩
        | some r2 => simp_all
  | succ fuel ih =>
    intro acc pos r h
    cases hp : parser tokens pos <;> simp [repGo, hp] at h
    case some x =>
      cases x with
      | error e => simp_all
      | ok o =>
        cases o with
        | none =>
          simp_all
          exact ⟨acc, pos, h.symm⟩
        | some r2 =>
          simp only at h
          exact ih _ _ _ h

/-- C7: `Rep(p)` never returns failure: every terminating, non-raising
application returns a success whose value is a list; when `p` fails at the
very first attempt the result is the empty list at the original position;
and after a first success of `p` with value `v` the result is the rest of
the run with `v` prepended to its value list. -/
theorem rep_always_succeeds :
    (∀ (p : ParserF) (tokens : List Token) (pos : PyVal) (fuel : Nat)
        (r : Option Res), repCall p fuel tokens pos = some (.ok r) →
        ∃ vs q, r = some (.vList vs, q)) ∧
    (∀ (p : ParserF) (tokens : List Token) (pos : PyVal) (fuel : Nat),
        p tokens pos = some (.ok none) →
        repCall p fuel tokens pos = some (.ok (some (.vList [], pos)))) ∧
    (∀ (p : ParserF) (tokens : List Token) (pos : PyVal) (fuel : Nat)
        (v q : PyVal), p tokens pos = some (.ok (some (v, q))) →
        repCall p (fuel + 1) tokens pos =
          repPrepend [v] (repCall p fuel tokens q)) := by
  refine ⟨?_, ?_, ?_⟩
  · intro p tokens pos fuel r h
    exact repGo_ok p tokens fuel [] pos r h
  · intro p tokens pos fuel h
    cases fuel <;> simp [repCall, repGo, h]
  · intro p tokens pos fuel v q h
    show repGo p tokens (fuel + 1) [] pos = repPrepend [v] (repGo p tokens fuel [] q)
    rw [repGo]
    rw [h]
    simpa using repGo_acc p tokens fuel [v] q

/-- Witness for C7: `rep` of a tag parser over one non-matching token
succeeds with an empty list at the unchanged position. -/
theorem rep_always_succeeds_witness :
    repCall (tagCall .INT) 5 [⟨"x", .ID⟩] (.vInt 0) =
      some (.ok (some (.vList [], .vInt 0))) :=
  rep_always_succeeds.2.1 (tagCall .INT) [⟨"x", .ID⟩] (.vInt 0) 5 rfl

/-- C1: evaluating the code at the failing input:
`Concat(Reserved("a", RESERVED), Reserved("b", RESERVED))` on the token list
`[("a", RESERVED), ("b", RESERVED)]` at position 0 succeeds with the pair
value `("a", "b")` but with the string `"b"` — the right parser's value —
in the position slot, where the claim requires the right parser's resulting
position 2 (the source builds `Result(combined_value, right_result.value)`
instead of `Result(combined_value, right_result.pos)`). -/
theorem concat_returns_value_as_position :
    concatCall (reservedCall "a" .RESERVED) (reservedCall "b" .RESERVED)
      [⟨"a", .RESERVED⟩, ⟨"b", .RESERVED⟩] (.vInt 0) =
      some (.ok (some (.vPair (.vStr "a") (.vStr "b"), .vStr "b"))) := rfl

/-- C2: evaluating the code at the failing inputs: the parser
`precedence(aexp_term, [[*, /], [+, -]], process_binop)` raises TypeError on
the token lists of `2 + 3 * 4` and of `2 - 3 - 4` instead of producing the
claimed BinopAexp trees.  `Concat` stores the right sub-result's value in
the position slot, so after the first separator step `Exp` re-applies its
parsers at an AST-node position and `Reserved.__call__` evaluates
`tokens[pos]` with a non-integer index. -/
theorem precedence_raises_type_error :
    precedence (aexpTerm 10 1) aexpPrecedenceList processBinop 10
        tokensTwoPlusThreeTimesFour (.vInt 0) =
        some (.error .typeError) ∧
    precedence (aexpTerm 10 1) aexpPrecedenceList processBinop 10
        tokensTwoMinusThreeMinusFour (.vInt 0) =
        some (.error .typeError) :=
  ⟨rfl, rfl⟩

/-- C8: `Phrase(p)` succeeds exactly when `p` succeeds with a resulting
position equal to the token-list length, in which case it returns the
result unchanged; when `p` succeeds elsewhere or fails, `Phrase(p)` fails. -/
theorem phrase_full_consumption :
    ∀ (p : ParserF) (tokens : List Token) (pos v : PyVal) (q : Int),
      (p tokens pos = some (.ok (some (v, .vInt q))) →
        phraseCall p tokens pos =
          (if q = tokens.length then some (.ok (some (v, .vInt q)))
           else some (.ok none))) ∧
      (p tokens pos = some (.ok none) →
        phraseCall p tokens pos = some (.ok none)) := by
  intro p tokens pos v q
  constructor
  · intro h
    simp only [phraseCall, h, pyEq]
    by_cases hq : q = (tokens.length : Int) <;> simp [hq]
  · intro h
    simp [phraseCall, h]

/-- Witness for C8: a tag parser consuming the single token of the list
makes `Phrase` succeed with the unchanged result. -/
theorem phrase_full_consumption_witness :
    phraseCall (tagCall .INT) [⟨"2", .INT⟩] (.vInt 0) =
      some (.ok (some (.vStr "2", .vInt 1))) := by
  have h :=
    (phrase_full_consumption (tagCall .INT) [⟨"2", .INT⟩] (.vInt 0)
      (.vStr "2") 1).1 rfl
  simpa using h

/-- Helper: a successful first match comes from a rule of the table. -/
theorem firstMatch_mem (exprs : List TokenExpr) (chars : List Char)
    (pos q : Nat) (ot : Option Tag) :
    firstMatch exprs chars pos = some (q, ot) →
    ∃ e ∈ exprs, e.pattern chars pos = some q ∧ e.tag = ot := by
  induction exprs with
  | nil => intro h; simp [firstMatch] at h
  | cons e rest ih =>
    intro h
    cases hp : e.pattern chars pos with
    | some q2 =>
      simp only [firstMatch, hp, Option.some.injEq, Prod.mk.injEq] at h
      exact ⟨e, by simp, by rw [hp, h.1], h.2⟩
    | none =>
      simp only [firstMatch, hp] at h
      obtain ⟨e2, he2, h1, h2⟩ := ih h
      exact ⟨e2, by simp [he2], h1, h2⟩

/-- Helper: a literal-string pattern matches forward. -/
theorem litMatch_le (lit chars : List Char) (p q : Nat) :
    litMatch lit chars p = some q → p ≤ q := by
  intro h
  simp only [litMatch] at h
  split at h
  · have hq := Option.some.inj h
    omega
  · exact absurd h (by simp)

/-- Helper: a character-class-plus pattern matches forward. -/
theorem classPlusMatch_le (cls : Char → Bool) (chars : List Char)
    (p q : Nat) : classPlusMatch cls chars p = some q → p ≤ q := by
  intro h
  simp only [classPlusMatch] at h
  split at h
  · exact absurd h (by simp)
  · have hq := Option.some.inj h
    omega

/-- Helper: whenever the lexer loop returns normally from cursor `pos`, the
accepted matches tile the remainder of the input and the emitted tokens are
the accumulated ones followed by the tagged matches in order. -/
theorem lexerLoop_tiles (exprs : List TokenExpr) (chars : List Char)
    (hmono : ∀ e ∈ exprs, ∀ (c : List Char) (p q : Nat),
      e.pattern c p = some q → p ≤ q) :
    ∀ (fuel pos : Nat) (acc toks : List LTok),
      lexerLoop exprs chars fuel pos acc = some (.ok toks) →
      ∃ ms : List (List Char × Option Tag),
        (ms.map Prod.fst).flatten = chars.drop pos ∧
        toks = acc ++ ms.filterMap (fun m => m.2.map (fun t => (m.1, t))) := by
  intro fuel
  induction fuel with
  | zero => intro pos acc toks h; simp [lexerLoop] at h
  | succ fuel ih =>
    intro pos acc toks h
    by_cases hlt : pos < chars.length
    · simp only [lexerLoop, if_pos hlt] at h
      cases hm : firstMatch exprs chars pos with
      | none => rw [hm] at h; exact absurd h (by simp)
      | some m =>
        obtain ⟨q, otag⟩ := m
        rw [hm] at h
        obtain ⟨e, hmem, hpat, _⟩ := firstMatch_mem exprs chars pos q otag hm
        have hpq : pos ≤ q := hmono e hmem chars pos q hpat
        obtain ⟨ms, hjoin, htoks⟩ := ih q _ toks h
        refine ⟨((chars.drop pos).take (q - pos), otag) :: ms, ?_, ?_⟩
        · simp only [List.map_cons, List.flatten_cons]
          rw [hjoin]
          have hdq : chars.drop q = (chars.drop pos).drop (q - pos) := by
            rw [List.drop_drop]
            congr 1
            omega
          rw [hdq, List.take_append_drop]
        · cases otag with
          | none => simpa using htoks
          | some t =>
            simp only [Option.map_some, List.filterMap_cons] at htoks ⊢
            rw [htoks]
            simp
    · simp only [lexerLoop, if_neg hlt] at h
      have hacc : acc = toks := by simpa using h
      subst hacc
      refine ⟨[], ?_, by simp⟩
      have hlen : chars.length ≤ pos := le_of_not_lt hlt
      simp [List.drop_eq_nil_of_le hlen]

/-- C9: on every run of the lexer that returns normally, the accepted
matches (tagged and untagged alike) tile the input exactly: their
concatenation in order is the entire input, and the emitted tokens are
exactly the tagged matches in input order (so every token's text is a
substring of the input).  The hypothesis is the property of
`re.match(characters, pos)` that a match never ends before `pos`. -/
theorem lexer_output_tiles_input :
    ∀ (exprs : List TokenExpr) (chars : List Char) (fuel : Nat)
      (toks : List LTok),
      (∀ e ∈ exprs, ∀ (c : List Char) (p q : Nat),
        e.pattern c p = some q → p ≤ q) →
      lexer chars exprs fuel = some (.ok toks) →
      ∃ ms : List (List Char × Option Tag),
        (ms.map Prod.fst).flatten = chars ∧
        toks = ms.filterMap (fun m => m.2.map (fun t => (m.1, t))) := by
  intro exprs chars fuel toks hmono h
  obtain ⟨ms, h1, h2⟩ := lexerLoop_tiles exprs chars hmono fuel 0 [] toks h
  exact ⟨ms, by simpa using h1, by simpa using h2⟩

/-- Witness for C9 on the whitespace/ID table and input `"a b"`. -/
theorem lexer_output_tiles_input_witness :
    ∃ ms : List (List Char × Option Tag),
      (ms.map Prod.fst).flatten = ['a', ' ', 'b'] ∧
      [(['a'], Tag.ID), (['b'], Tag.ID)] =
        ms.filterMap (fun m => m.2.map (fun t => (m.1, t))) :=
  lexer_output_tiles_input wsIdExprs ['a', ' ', 'b'] 10
    [(['a'], Tag.ID), (['b'], Tag.ID)]
    (by
      intro e he c p q hpq
      simp only [wsIdExprs, List.mem_cons, List.not_mem_nil, or_false] at he
      rcases he with rfl | rfl
      · exact classPlusMatch_le _ c p q hpq
      · exact classPlusMatch_le _ c p q hpq)
    rfl

/-- C5: the first rule of the table whose pattern matches at the cursor is
the one accepted, whatever any later rule would have matched; in particular
the table `[("if", KEYWORD), ("[a-zA-Z]+", ID)]` on input `"if"` yields the
single KEYWORD token, not an ID token. -/
theorem lexer_rule_order_wins :
    (∀ (pre : List TokenExpr) (e : TokenExpr) (rest : List TokenExpr)
        (chars : List Char) (pos q : Nat),
        (∀ e2 ∈ pre, e2.pattern chars pos = none) →
        e.pattern chars pos = some q →
        firstMatch (pre ++ e :: rest) chars pos = some (q, e.tag)) ∧
    lexer ['i', 'f'] ifIdExprs 10 = some (.ok [(['i', 'f'], .KEYWORD)]) := by
  constructor
  · intro pre e rest chars pos q hpre he
    induction pre with
    | nil => simp [firstMatch, he]
    | cons e2 pre ih =>
      have h2 : e2.pattern chars pos = none := hpre e2 (by simp)
      simp only [List.cons_append, firstMatch, h2]
      exact ih (fun e3 h3 => hpre e3 (by simp [h3]))
  · rfl

/-- Witness for C5: with the KEYWORD rule failing on input `"ab"`, the
second rule is the first match. -/
theorem lexer_rule_order_wins_witness :
    firstMatch
      ([⟨litMatch ['i', 'f'], some Tag.KEYWORD⟩] ++
        ⟨classPlusMatch Char.isAlpha, some Tag.ID⟩ :: [])
      ['a', 'b'] 0 = some (2, some Tag.ID) :=
  lexer_rule_order_wins.1
    [⟨litMatch ['i', 'f'], some Tag.KEYWORD⟩]
    ⟨classPlusMatch Char.isAlpha, some Tag.ID⟩ [] ['a', 'b'] 0 2
    (by
      intro e2 h2
      rw [List.mem_singleton] at h2
      subst h2
      rfl)
    rfl

/-- C6: a matched rule with a tag appends the token (matched text, tag) and
advances the cursor; a matched rule without a tag only advances the cursor;
in particular an untagged whitespace rule and the ID rule turn `"a b"` into
exactly the two ID tokens with no token for the space. -/
theorem lexer_tag_and_discard :
    (∀ (exprs : List TokenExpr) (chars : List Char) (fuel pos : Nat)
        (toks : List LTok) (q : Nat) (otag : Option Tag),
        pos < chars.length →
        firstMatch exprs chars pos = some (q, otag) →
        lexerLoop exprs chars (fuel + 1) pos toks =
          lexerLoop exprs chars fuel q
            (toks ++ (otag.map
              (fun t => ((chars.drop pos).take (q - pos), t))).toList)) ∧
    lexer ['a', ' ', 'b'] wsIdExprs 10 =
      some (.ok [(['a'], .ID), (['b'], .ID)]) := by
  constructor
  · intro exprs chars fuel pos toks q otag hlt hm
    cases otag <;> simp [lexerLoop, hlt, hm]
  · rfl

/-- Witness for C6: one untagged whitespace step of the loop advances the
cursor from 1 to 2 without emitting a token. -/
theorem lexer_tag_and_discard_witness :
    lexerLoop wsIdExprs ['a', ' ', 'b'] 6 1 [(['a'], Tag.ID)] =
      lexerLoop wsIdExprs ['a', ' ', 'b'] 5 2
        ([(['a'], Tag.ID)] ++ ((none : Option Tag).map
          (fun t => (((['a', ' ', 'b'].drop 1).take (2 - 1)), t))).toList) :=
  lexer_tag_and_discard.1 wsIdExprs ['a', ' ', 'b'] 5 1 [(['a'], Tag.ID)] 2
    none (by decide) rfl

/-- C10: the deferred-reference combinator: the first application resolves
the producer's parser, applies it and caches it; an application with a
cached parser applies the cache and does not consult the producer (the
outcome is the same for any producer); hence applying `Lazy(f)` equals
applying `f()` directly, and repeated applications give equal results. -/
theorem lazy_resolves_once :
    ∀ (f g : Unit → ParserF) (p : ParserF) (tokens : List Token)
      (pos : PyVal),
      (lazyCall f none tokens pos = (f () tokens pos, some (f ()))) ∧
      (lazyCall f (some p) tokens pos = (p tokens pos, some p)) ∧
      (lazyCall g (some p) tokens pos = lazyCall f (some p) tokens pos) ∧
      ((lazyCall f (lazyCall f none tokens pos).2 tokens pos).1 =
        (lazyCall f none tokens pos).1) :=
  fun _ _ _ _ _ => ⟨rfl, rfl, rfl, rfl⟩

/-- On well-formed arithmetic-expression nodes, `==` returns a boolean that
is true exactly for structurally identical nodes. -/
theorem pyEq_aexp (a b : PyVal) (ha : IsAexp a) (hb : IsAexp b) :
    ∃ r : Bool, pyEq a b = .ok r ∧ (r = true ↔ a = b) := by
  induction ha generalizing b with
  | int n =>
    cases hb with
    | int m =>
      refine ⟨decide (n = m), rfl, ?_⟩
      simp
    | var s => exact ⟨false, rfl, by simp⟩
    | binop op hl hr => exact ⟨false, rfl, by simp⟩
  | var s =>
    cases hb with
    | int m => exact ⟨false, rfl, by simp⟩
    | var t =>
      refine ⟨decide (s = t), rfl, ?_⟩
      simp
    | binop op hl hr => exact ⟨false, rfl, by simp⟩
  | @binop op l r hl hr ihl ihr =>
    cases hb with
    | int m => exact ⟨false, rfl, by simp⟩
    | var t => exact ⟨false, rfl, by simp⟩
    | @binop op2 l2 r2 hl2 hr2 =>
      obtain ⟨r1, e1, iff1⟩ := ihl l2 hl2
      obtain ⟨r2v, e2, iff2⟩ := ihr r2 hr2
      have hred : pyEq (.binopAexp (.vStr op) l r) (.binopAexp (.vStr op2) l2 r2) =
          .ok (decide (op = op2) && (r1 && r2v)) := by
        by_cases hop : op = op2 <;> cases r1 <;> cases r2v <;>
          simp [pyEq, instanceEq, keyCmp, lookupKey, fieldStep, e1, e2, hop,
            PyVal.getDict, PyVal.variantIdx]
      refine ⟨decide (op = op2) && (r1 && r2v), hred, ?_⟩
      constructor
      · intro h
        simp only [Bool.and_eq_true, decide_eq_true_eq] at h
        obtain ⟨hop, h1, h2⟩ := h
        rw [hop, iff1.mp h1, iff2.mp h2]
      · intro h
        injection h with hop hl2e hr2e
        injection hop with hops
        simp [hops, iff1.mpr hl2e, iff2.mpr hr2e]

/-- Restricted positive result on the arithmetic-expression fragment of the
node model: there `equals` returns true iff the nodes have the same variant
and recursively equal fields, i.e. iff they are structurally identical; any
difference yields false (and no error).  Over the full node model the
equality claim fails — see the failing IfStatement input below. -/
theorem equality_iff_structural (a b : PyVal) (ha : IsAexp a) (hb : IsAexp b) :
    (pyEq a b = .ok true ↔ a = b) ∧ (a ≠ b → pyEq a b = .ok false) := by
  obtain ⟨r, hr, hiff⟩ := pyEq_aexp a b ha hb
  constructor
  · rw [hr]
    constructor
    · intro h
      exact hiff.mp (by injection h)
    · intro h
      rw [hiff.mpr h]
  · intro hne
    cases r with
    | false => exact hr
    | true => exact absurd (hiff.mp rfl) hne

/-- Concrete instance of the restricted result: IntAexp(2) and IntAexp(3)
differ in one field and compare unequal without error. -/
theorem equality_iff_structural_witness :
    pyEq (.intAexp (.vInt 2)) (.intAexp (.vInt 3)) = .ok false :=
  (equality_iff_structural _ _ (.int 2) (.int 3)).2 (by simp)

/-- C4: evaluating the code at the failing input: over the full node model
the claimed equivalence fails.  Comparing `IfStatement(c, t, None)` with
`IfStatement(c, t, s)` — identical condition and true branch, an absent
versus a present else branch, all nodes well formed — raises AttributeError
instead of yielding false: the attribute-dictionary comparison reaches
`None == s`, Python retries with `Equality.__eq__(s, None)`, and the eager
logic list evaluates `None.__dict__`.  With the short-circuit conjunction
the isinstance guard evidently intends, that reflected comparison would
return false and the claim would hold. -/
theorem equality_raises_on_if_none :
    pyEq
      (.ifStmt
        (.relopBexp (.vStr "<") (.varAexp (.vStr "x")) (.intAexp (.vInt 1)))
        (.assignStmt (.vStr "x") (.intAexp (.vInt 0)))
        .vNone)
      (.ifStmt
        (.relopBexp (.vStr "<") (.varAexp (.vStr "x")) (.intAexp (.vInt 1)))
        (.assignStmt (.vStr "x") (.intAexp (.vInt 0)))
        (.assignStmt (.vStr "y") (.intAexp (.vInt 2)))) =
      .error .attributeError := rfl

/-- C3: evaluating the code at the failing input: `IntAexp(2) == 5` raises
AttributeError, because the logic list in `Equality.__eq__` evaluates
`other.__dict__` even though the isinstance test is false, and an int has no
`__dict__`.  The claim says the comparison returns false and never fails. -/
theorem equality_raises_on_int :
    pyEq (.intAexp (.vInt 2)) (.vInt 5) = .error .attributeError := rfl

end Gwildor
